import Mathlib

/-!
Shallow embedding of the resilience/throughput core of the RiceDB Python client:
the bulk-ingestion engine (`BaseRiceDBClient.fast_ingest` / `batch_insert`,
`src/ricedb/client/base_client.py`) and the transport selector
(`RiceDBClient._get_client` / `connect` / `disconnect`,
`src/ricedb/client/unified_client.py`, together with the per-channel
`connect` implementations in `grpc_client.py` and `http_client.py`).

Python exceptions are modelled as `Except` values; a function that "may
raise" returns `Except E A`, and a `try/except` is a `match` on that value.
Wall-clock durations are modelled as an explicit rational parameter, since
the engine only branches on `total_time > 0`.
-/

namespace RiceDB

/-- A document as handled by `batch_insert` / `fast_ingest`: a dict with an
`id`, optional `text`, a metadata dict, and an optional per-document
`user_id` overriding the call-level default. -/
structure Doc where
  id : Int
  text : String
  metadata : List (String × String)
  user_id : Option Int
  deriving Repr, DecidableEq

/-- `batches = [documents[i : i + batch_size] for i in range(0, len(documents), batch_size)]`
(`base_client.py` line 558).  For `batch_size = 0` the Python `range` would
raise `ValueError`; every claim about this function assumes a positive
`batch_size`, and we return `[]` in that degenerate case. -/
def makeBatches (batch_size : Nat) : List α → List (List α)
  | [] => []
  | d :: ds =>
    if batch_size = 0 then []
    else (d :: ds).take batch_size :: makeBatches batch_size ((d :: ds).drop batch_size)
  termination_by l => l.length
  decreasing_by
    simp only [List.length_drop, List.length_cons]
    omega

theorem makeBatches_nil (batch_size : Nat) : makeBatches batch_size ([] : List α) = [] := by
  simp [makeBatches]

theorem makeBatches_cons (batch_size : Nat) (h : batch_size ≠ 0) (d : α) (ds : List α) :
    makeBatches batch_size (d :: ds)
      = (d :: ds).take batch_size :: makeBatches batch_size ((d :: ds).drop batch_size) := by
  rw [makeBatches]
  simp [h]

/-- Concatenating the batches gives back the input, in order. -/
theorem makeBatches_join (batch_size : Nat) (h : 0 < batch_size) (l : List α) :
    (makeBatches batch_size l).flatten = l := by
  match l with
  | [] => simp [makeBatches]
  | d :: ds =>
    rw [makeBatches_cons batch_size (Nat.pos_iff_ne_zero.mp h)]
    rw [List.flatten_cons]
    rw [makeBatches_join batch_size h ((d :: ds).drop batch_size)]
    exact List.take_append_drop batch_size (d :: ds)
  termination_by l.length
  decreasing_by
    simp only [List.length_drop, List.length_cons]
    omega

/-- Every batch has at most `batch_size` elements. -/
theorem makeBatches_length_le (batch_size : Nat) (l : List α)
    (b : List α) (hb : b ∈ makeBatches batch_size l) : b.length ≤ batch_size := by
  match l with
  | [] => simp [makeBatches] at hb
  | d :: ds =>
    by_cases h0 : batch_size = 0
    · rw [makeBatches] at hb
      simp [h0] at hb
    · rw [makeBatches_cons batch_size h0] at hb
      rcases List.mem_cons.mp hb with h | h
      · subst h
        exact List.length_take_le batch_size (d :: ds)
      · exact makeBatches_length_le batch_size ((d :: ds).drop batch_size) b h
  termination_by l.length
  decreasing_by
    simp only [List.length_drop, List.length_cons]
    omega

theorem makeBatches_count (batch_size : Nat) (h : 0 < batch_size) (l : List α)
    [DecidableEq α] (a : α) :
    ((makeBatches batch_size l).map (fun b => b.count a)).sum = l.count a := by
  have hj := makeBatches_join batch_size h l
  calc ((makeBatches batch_size l).map (fun b => b.count a)).sum
      = (makeBatches batch_size l).flatten.count a := by
        induction makeBatches batch_size l with
        | nil => simp
        | cons b bs ih => simp [List.count_append, ih]
    _ = l.count a := by rw [hj]

/-- C1: For every list of documents and every positive `batchSize`, the
partition built by `fastIngest` consists of contiguous slices of at most
`batchSize` documents each, in input order, whose concatenation equals the
input list; hence the sum of the batch lengths equals the length of the
input and every submitted document appears in the batches exactly as often
as in the input, with relative order preserved. -/
theorem fast_ingest_partition (documents : List Doc) (batch_size : Nat)
    (h : 0 < batch_size) :
    (makeBatches batch_size documents).flatten = documents ∧
    (∀ b ∈ makeBatches batch_size documents, b.length ≤ batch_size) ∧
    ((makeBatches batch_size documents).map List.length).sum = documents.length ∧
    (∀ a : Doc, ((makeBatches batch_size documents).map (fun b => b.count a)).sum
        = documents.count a) := by
  refine ⟨makeBatches_join batch_size h documents,
          fun b hb => makeBatches_length_le batch_size documents b hb, ?_, ?_⟩
  · rw [← List.length_flatten, makeBatches_join batch_size h documents]
  · intro a
    exact makeBatches_count batch_size h documents a

/-- Witness for C1 at a concrete input: three documents, `batchSize = 2`. -/
theorem fast_ingest_partition_witness :
    (0 : Nat) < 2 ∧
    ((makeBatches 2 [Doc.mk 1 "a" [] none, Doc.mk 2 "b" [] none,
        Doc.mk 3 "c" [] none]).flatten
      = [Doc.mk 1 "a" [] none, Doc.mk 2 "b" [] none, Doc.mk 3 "c" [] none]) :=
  ⟨by decide,
    (fast_ingest_partition
      [Doc.mk 1 "a" [] none, Doc.mk 2 "b" [] none, Doc.mk 3 "c" [] none]
      2 (by decide)).1⟩

/-- The parsed response of one `batch_insert` call, as far as `fast_ingest`
inspects it: a dictionary that may or may not carry a `"count"` key
(`base_client.py` line 580: `isinstance(result, dict) and "count" in result`).
The HTTP transport returns the raw server JSON, so the key can be absent. -/
structure BatchResp where
  count? : Option Nat
  deriving Repr, DecidableEq

/-- The accumulator threaded through the `as_completed` loop of `fast_ingest`:
`total_inserted`, `failed_batches` and `errors` (`base_client.py`
lines 552-555). -/
structure FoldState where
  total_inserted : Nat
  failed_batches : Nat
  errors : List String
  deriving Repr, DecidableEq

def initState : FoldState := ⟨0, 0, []⟩

/-- One iteration of the result loop (`base_client.py` lines 571-584).
The pair holds the batch (the value of `future_to_batch[future]`) and the
outcome of its `_process_batch` call: an exception value or a response.
On an exception: `failed_batches += 1` and, only while fewer than 10 errors
are recorded, the message is appended.  On a response: `total_inserted`
grows by the reported `"count"`, falling back to the batch length when the
response carries no `"count"` key. -/
def recordResult (st : FoldState) (p : List α × Except String BatchResp) : FoldState :=
  match p.2 with
  | .error e =>
      { st with
        failed_batches := st.failed_batches + 1,
        errors := if st.errors.length < 10 then st.errors ++ [e] else st.errors }
  | .ok r =>
      match r.count? with
      | some c => { st with total_inserted := st.total_inserted + c }
      | none => { st with total_inserted := st.total_inserted + p.1.length }

/-- The returned summary dictionary (`base_client.py` lines 587-593). -/
structure IngestionSummary where
  total_inserted : Nat
  failed_batches : Nat
  errors : List String
  time_taken : ℚ
  throughput : ℚ
  deriving Repr, DecidableEq

/-- `"throughput": total_inserted / total_time if total_time > 0 else 0`
(`base_client.py` line 592), with the wall-clock duration as an explicit
parameter. -/
def summarize (st : FoldState) (total_time : ℚ) : IngestionSummary :=
  { total_inserted := st.total_inserted
    failed_batches := st.failed_batches
    errors := st.errors
    time_taken := total_time
    throughput := if 0 < total_time then (st.total_inserted : ℚ) / total_time else 0 }

/-- The deterministic core of `fast_ingest`, parametrised by the order in
which `concurrent.futures.as_completed` yields the (batch, outcome) pairs;
`order` ranges over permutations of the submitted batches paired with their
results. -/
def fastIngestOn (order : List (List α × Except String BatchResp)) (total_time : ℚ) :
    IngestionSummary :=
  summarize (order.foldl recordResult initState) total_time

/-- `_process_batch` (`base_client.py` lines 560-565): the `batch_insert`
call is wrapped in `try/except Exception`, so any raised exception is
reified into an ordinary return value and the worker itself never raises. -/
def processBatch (batchInsert : List α → Except String BatchResp) (batch : List α) :
    Except String (Except String BatchResp) :=
  match batchInsert batch with
  | .ok r => .ok (.ok r)
  | .error e => .ok (.error e)

/-- Submitting every batch to the pool and collecting the value of each worker
(`base_client.py` lines 567-572): the enclosing computation fails only if
some worker raises — which `_process_batch` never does. -/
def submitBatches (batchInsert : List α → Except String BatchResp) :
    List (List α) → Except String (List (List α × Except String BatchResp))
  | [] => .ok []
  | b :: bs => do
      let r ← processBatch batchInsert b
      let rest ← submitBatches batchInsert bs
      pure ((b, r) :: rest)

/-- `fast_ingest` (`base_client.py` lines 534-593), with the behaviour of the
`batch_insert` of the transport and the measured wall-clock duration as
parameters.  The summary is computed here over the submission order; the
claim theorems additionally quantify over arbitrary completion orders via
`fastIngestOn`. -/
def fast_ingest (batchInsert : List α → Except String BatchResp)
    (documents : List α) (batch_size : Nat) (total_time : ℚ) :
    Except String IngestionSummary := do
  let batches := makeBatches batch_size documents
  let results ← submitBatches batchInsert batches
  pure (fastIngestOn results total_time)

theorem processBatch_ok (batchInsert : List α → Except String BatchResp) (b : List α) :
    processBatch batchInsert b = .ok (batchInsert b) := by
  unfold processBatch
  cases batchInsert b <;> rfl

theorem submitBatches_ok (batchInsert : List α → Except String BatchResp)
    (batches : List (List α)) :
    submitBatches batchInsert batches = .ok (batches.map (fun b => (b, batchInsert b))) := by
  induction batches with
  | nil => rfl
  | cons b bs ih =>
      simp only [submitBatches, processBatch_ok, ih, List.map_cons]
      rfl

/-- C2: `fastIngest` never raises because of the failure of any individual
`batchInsert` call — every per-batch outcome, exception or not, is folded
into the returned summary — so the whole call evaluates to a summary, never
to an exception (in the embedded code no submission failure path exists
either, so nothing at all is raised). -/
theorem fast_ingest_never_raises (batchInsert : List α → Except String BatchResp)
    (documents : List α) (batch_size : Nat) (total_time : ℚ) :
    fast_ingest batchInsert documents batch_size total_time
      = .ok (fastIngestOn
          ((makeBatches batch_size documents).map (fun b => (b, batchInsert b)))
          total_time) := by
  show (do
      let results ← submitBatches batchInsert (makeBatches batch_size documents)
      pure (fastIngestOn results total_time)) = _
  rw [submitBatches_ok]
  rfl

theorem recordResult_error_eq (st : FoldState) (b : List α) (e : String) :
    recordResult st (b, Except.error e)
      = { st with
          failed_batches := st.failed_batches + 1,
          errors := if st.errors.length < 10 then st.errors ++ [e] else st.errors } := rfl

/-- When every completed batch failed, the fold leaves `total_inserted`
untouched, counts every batch in `failed_batches`, and appends an error
message exactly while fewer than 10 are stored. -/
theorem foldl_record_all_errors (order : List (List α × Except String BatchResp))
    (st : FoldState) (h : ∀ p ∈ order, ∃ e, p.2 = Except.error e) :
    (order.foldl recordResult st).total_inserted = st.total_inserted ∧
    (order.foldl recordResult st).failed_batches = st.failed_batches + order.length ∧
    (order.foldl recordResult st).errors.length
      = min (st.errors.length + order.length) (max st.errors.length 10) := by
  induction order generalizing st with
  | nil => simp
  | cons p rest ih =>
      obtain ⟨e, he⟩ := h p (List.mem_cons_self p rest)
      obtain ⟨b, r⟩ := p
      cases he
      rw [List.foldl_cons, recordResult_error_eq]
      obtain ⟨h1, h2, h3⟩ := ih _ (fun q hq => h q (List.mem_cons_of_mem _ hq))
      refine ⟨h1, ?_, ?_⟩
      · rw [h2]
        simp only [List.length_cons]
        omega
      · rw [h3]
        by_cases hlt : st.errors.length < 10 <;>
          simp only [hlt, if_true, if_false, List.length_append, List.length_cons,
            List.length_nil] <;> omega

/-- In every state reachable from an at-most-10-element error list, the
error list never exceeds 10 elements. -/
theorem foldl_record_errors_le (order : List (List α × Except String BatchResp))
    (st : FoldState) :
    (order.foldl recordResult st).errors.length ≤ max st.errors.length 10 := by
  induction order generalizing st with
  | nil => simp
  | cons p rest ih =>
      rw [List.foldl_cons]
      refine le_trans (ih (recordResult st p)) ?_
      have hstep : (recordResult st p).errors.length = st.errors.length ∨
          (st.errors.length < 10 ∧
            (recordResult st p).errors.length = st.errors.length + 1) := by
        obtain ⟨b, r⟩ := p
        cases r with
        | error e =>
            rw [recordResult_error_eq]
            by_cases hlt : st.errors.length < 10
            · exact Or.inr ⟨hlt, by simp [hlt]⟩
            · exact Or.inl (by simp [hlt])
        | ok resp =>
            cases hc : resp.count? <;> exact Or.inl (by simp [recordResult, hc])
      rcases hstep with h | ⟨hlt, h⟩
      all_goals omega

/-- C3: if every `batchInsert` call fails, the summary (over any completion
order of the batches) has `totalInserted = 0`, `failedBatches` equal to the
number of batches, and exactly `min(10, failedBatches)` recorded errors;
and over any result sequence whatsoever the error list never exceeds
length 10. -/
theorem fast_ingest_all_failures (batchInsert : List α → Except String BatchResp)
    (documents : List α) (batch_size : Nat) (total_time : ℚ)
    (order : List (List α × Except String BatchResp))
    (hperm : order.Perm
      ((makeBatches batch_size documents).map (fun b => (b, batchInsert b))))
    (hfail : ∀ b : List α, ∃ e, batchInsert b = Except.error e) :
    (fastIngestOn order total_time).total_inserted = 0 ∧
    (fastIngestOn order total_time).failed_batches
      = (makeBatches batch_size documents).length ∧
    (fastIngestOn order total_time).errors.length
      = min 10 (makeBatches batch_size documents).length ∧
    (∀ (order2 : List (List α × Except String BatchResp)) (t2 : ℚ),
      (fastIngestOn order2 t2).errors.length ≤ 10) := by
  have hall : ∀ p ∈ order, ∃ e, p.2 = Except.error e := by
    intro p hp
    have hp2 := hperm.mem_iff.mp hp
    obtain ⟨b, _, rfl⟩ := List.mem_map.mp hp2
    obtain ⟨e, he⟩ := hfail b
    exact ⟨e, he⟩
  have hlen : order.length = (makeBatches batch_size documents).length := by
    rw [hperm.length_eq, List.length_map]
  obtain ⟨h1, h2, h3⟩ := foldl_record_all_errors order initState hall
  have f0 : initState.failed_batches = 0 := rfl
  have e0 : initState.errors.length = 0 := rfl
  refine ⟨h1, ?_, ?_, ?_⟩
  · show (order.foldl recordResult initState).failed_batches = _
    rw [h2, hlen]
    omega
  · show (order.foldl recordResult initState).errors.length = _
    rw [h3, hlen]
    omega
  · intro order2 t2
    have := foldl_record_errors_le order2 initState
    simpa [initState] using this

/-- A `batch_insert` behaviour that always raises, for concrete witnesses. -/
def alwaysFailInsert : List Nat → Except String BatchResp := fun _ => .error "boom"

theorem makeBatches_one_123 : makeBatches 1 ([1, 2, 3] : List Nat) = [[1], [2], [3]] := by
  simp [makeBatches_cons 1 one_ne_zero, makeBatches_nil]

/-- Witness for C3: three singleton batches, every call failing. -/
theorem fast_ingest_all_failures_witness :
    (fastIngestOn
      ((makeBatches 1 [1, 2, 3]).map (fun b => (b, alwaysFailInsert b))) 1).total_inserted
        = 0 ∧
    (fastIngestOn
      ((makeBatches 1 [1, 2, 3]).map (fun b => (b, alwaysFailInsert b))) 1).failed_batches
        = 3 ∧
    (fastIngestOn
      ((makeBatches 1 [1, 2, 3]).map (fun b => (b, alwaysFailInsert b))) 1).errors.length
        = 3 := by
  obtain ⟨h1, h2, h3, _⟩ := fast_ingest_all_failures alwaysFailInsert [1, 2, 3] 1 1 _
    (List.Perm.refl _) (fun b => ⟨"boom", rfl⟩)
  rw [makeBatches_one_123] at h1 h2 h3
  rw [makeBatches_one_123]
  exact ⟨h1, by rw [h2]; rfl, by rw [h3]; decide⟩

/-- The count a successful response contributes to `total_inserted`. -/
def okCount (p : List α × Except String BatchResp) : Option Nat :=
  match p.2 with
  | Except.ok r => r.count?
  | Except.error _ => none

/-- Whether the outcome of a batch, when successful, carries a `"count"`
key in its response (true for all transports of this repository except
possibly the raw JSON of the HTTP one). -/
def reportsCount (p : List α × Except String BatchResp) : Bool :=
  match p.2 with
  | Except.ok r => r.count?.isSome
  | Except.error _ => true

theorem foldl_record_total (order : List (List α × Except String BatchResp))
    (st : FoldState)
    (hcount : ∀ p ∈ order, reportsCount p = true) :
    (order.foldl recordResult st).total_inserted
      = st.total_inserted + (order.filterMap okCount).sum := by
  induction order generalizing st with
  | nil => simp
  | cons p rest ih =>
      rw [List.foldl_cons]
      have ihp := ih (recordResult st p)
        (fun q hq => hcount q (List.mem_cons_of_mem _ hq))
      rw [ihp]
      obtain ⟨b, r⟩ := p
      cases r with
      | error e =>
          rw [recordResult_error_eq]
          simp [okCount, List.filterMap_cons]
      | ok resp =>
          cases hc : resp.count? with
          | some c =>
              simp only [recordResult, hc, okCount, List.filterMap_cons, List.sum_cons]
              omega
          | none =>
              have := hcount (b, Except.ok resp) (List.mem_cons_self _ _)
              simp [reportsCount, hc] at this

/-- C6: over any completion order in which every successful `batchInsert`
response reports a count (as the response of every in-repo transport does),
`totalInserted` equals the sum of the reported counts of the successful
batches; failed batches contribute nothing. -/
theorem fast_ingest_total_inserted (order : List (List α × Except String BatchResp))
    (total_time : ℚ)
    (hcount : ∀ p ∈ order, reportsCount p = true) :
    (fastIngestOn order total_time).total_inserted
      = (order.filterMap okCount).sum := by
  show (order.foldl recordResult initState).total_inserted = _
  rw [foldl_record_total order initState hcount]
  simp [initState]

/-- Witness for C6: two successful batches reporting 100 each and one
failing batch give `totalInserted = 200`. -/
theorem fast_ingest_total_inserted_witness :
    (fastIngestOn
      [(([1] : List Nat), Except.ok (BatchResp.mk (some 100))),
       ([2], Except.error "boom"),
       ([3], Except.ok (BatchResp.mk (some 100)))] 1).total_inserted = 200 := by
  rw [fast_ingest_total_inserted _ 1 (by decide)]
  rfl

/-- C8: the throughput field of the summary is `totalInserted / elapsed` exactly when
the elapsed time is positive, and 0 otherwise — in particular it is 0 when
the elapsed time is 0, and the division only ever happens under the
positivity guard. -/
theorem fast_ingest_throughput (order : List (List α × Except String BatchResp))
    (total_time : ℚ) :
    ((fastIngestOn order total_time).throughput
      = if 0 < total_time
        then ((fastIngestOn order total_time).total_inserted : ℚ) / total_time
        else 0) ∧
    (fastIngestOn order 0).throughput = 0 := by
  constructor
  · rfl
  · simp [fastIngestOn, summarize]

/-- The owner id used for one document in the default `batch_insert`
(`base_client.py` line 523):
`doc.get("user_id", user_id if user_id is not None else 1)`. -/
def effUserId (doc : Doc) (user_id : Option Int) : Int :=
  doc.user_id.getD (user_id.getD 1)

/-- The loop of the default `batch_insert` (`base_client.py` lines 521-530):
documents are inserted one at a time, sequentially, in input order, each
result appended to `results`; an exception from any single `insert`
propagates immediately, aborting the rest of the loop. -/
def insertLoop (insert : Doc → Int → Except String R) (user_id : Option Int) :
    List Doc → Except String (List R)
  | [] => .ok []
  | d :: ds =>
      match insert d (effUserId d user_id) with
      | .error e => .error e
      | .ok r =>
          match insertLoop insert user_id ds with
          | .error e => .error e
          | .ok rs => .ok (r :: rs)

/-- The default `batch_insert` (`base_client.py` lines 509-532): run the
loop and return `{"count": len(results), "results": results}` (only the
`"count"` key is inspected downstream and modelled in `BatchResp`). -/
def base_batch_insert (insert : Doc → Int → Except String R)
    (documents : List Doc) (user_id : Option Int) : Except String BatchResp :=
  match insertLoop insert user_id documents with
  | .error e => .error e
  | .ok rs => .ok ⟨some rs.length⟩

/-- The documents whose `insert` call has already completed by the time the
loop stops: with no rollback, exactly these have been sent to the server
when `batch_insert` propagates an exception. -/
def sentDocs (insert : Doc → Int → Except String R) (user_id : Option Int) :
    List Doc → List Doc
  | [] => []
  | d :: ds =>
      match insert d (effUserId d user_id) with
      | .ok _ => d :: sentDocs insert user_id ds
      | .error _ => []

theorem insertLoop_ok (insert : Doc → Int → Except String R) (user_id : Option Int)
    (documents : List Doc) (rs : List R)
    (h : insertLoop insert user_id documents = .ok rs) :
    rs.length = documents.length ∧ sentDocs insert user_id documents = documents := by
  induction documents generalizing rs with
  | nil =>
      simp only [insertLoop] at h
      cases h
      exact ⟨rfl, rfl⟩
  | cons d ds ih =>
      simp only [insertLoop] at h
      cases h1 : insert d (effUserId d user_id) with
      | error e => rw [h1] at h; cases h
      | ok r =>
          rw [h1] at h
          cases h2 : insertLoop insert user_id ds with
          | error e => rw [h2] at h; cases h
          | ok rs2 =>
              rw [h2] at h
              cases h
              obtain ⟨hl, hs⟩ := ih rs2 h2
              refine ⟨by simp [hl], ?_⟩
              simp only [sentDocs, h1, hs]

theorem insertLoop_error (insert : Doc → Int → Except String R) (user_id : Option Int)
    (documents : List Doc) (e : String)
    (h : insertLoop insert user_id documents = .error e) :
    ∃ pre d post, documents = pre ++ d :: post ∧
      (∀ x ∈ pre, (insert x (effUserId x user_id)).isOk = true) ∧
      insert d (effUserId d user_id) = .error e ∧
      sentDocs insert user_id documents = pre := by
  induction documents with
  | nil => simp [insertLoop] at h
  | cons d ds ih =>
      simp only [insertLoop] at h
      cases h1 : insert d (effUserId d user_id) with
      | error e2 =>
          rw [h1] at h
          cases h
          exact ⟨[], d, ds, rfl, by simp, h1, by simp [sentDocs, h1]⟩
      | ok r =>
          rw [h1] at h
          cases h2 : insertLoop insert user_id ds with
          | ok rs => rw [h2] at h; cases h
          | error e2 =>
              rw [h2] at h
              cases h
              obtain ⟨pre, dd, post, hsplit, hpre, herr, hsent⟩ := ih h2
              refine ⟨d :: pre, dd, post, by rw [hsplit]; rfl, ?_, herr, ?_⟩
              · intro x hx
                rcases List.mem_cons.mp hx with rfl | hx2
                · rw [h1]; rfl
                · exact hpre x hx2
              · simp only [sentDocs, h1, hsent]

/-- C10: the default `batchInsert` inserts sequentially in input order and,
when it returns normally, reports a count equal to the number of documents
in the batch (having sent them all); if a single insert raises, the
exception propagates out of `batchInsert` immediately — the documents
before the failing one have already been sent, with no rollback, while the
error of the failing document aborts the rest of the batch; and a batch recorded
as failed by `fastIngest` contributes nothing to `totalInserted`, so those
partially inserted documents are excluded from the reported total. -/
theorem batch_insert_no_rollback (insert : Doc → Int → Except String R)
    (user_id : Option Int) (documents : List Doc) :
    (∀ r, base_batch_insert insert documents user_id = Except.ok r →
      r.count? = some documents.length ∧
      sentDocs insert user_id documents = documents) ∧
    (∀ e, base_batch_insert insert documents user_id = Except.error e →
      ∃ pre d post, documents = pre ++ d :: post ∧
        (∀ x ∈ pre, (insert x (effUserId x user_id)).isOk = true) ∧
        insert d (effUserId d user_id) = Except.error e ∧
        sentDocs insert user_id documents = pre) ∧
    (∀ (st : FoldState) (b : List Doc) (e : String),
      (recordResult st (b, Except.error e)).total_inserted = st.total_inserted) := by
  refine ⟨?_, ?_, ?_⟩
  · intro r hr
    unfold base_batch_insert at hr
    cases h : insertLoop insert user_id documents with
    | error e => rw [h] at hr; cases hr
    | ok rs =>
        rw [h] at hr
        cases hr
        obtain ⟨hl, hs⟩ := insertLoop_ok insert user_id documents rs h
        exact ⟨by rw [hl], hs⟩
  · intro e he
    unfold base_batch_insert at he
    cases h : insertLoop insert user_id documents with
    | ok rs => rw [h] at he; cases he
    | error e2 =>
        rw [h] at he
        cases he
        exact insertLoop_error insert user_id documents _ h
  · intro st b e
    rw [recordResult_error_eq]

/-- An insert behaviour failing exactly on document id 2, for the witness. -/
def failOnId2 : Doc → Int → Except String Nat :=
  fun d _ => if d.id = 2 then .error "boom" else .ok 0

/-- Witness for C10: with three documents and the second insert raising, the
exception propagates out of `batch_insert` and exactly the first document
has been sent. -/
theorem batch_insert_no_rollback_witness :
    ∃ pre d post,
      ([Doc.mk 1 "a" [] none, Doc.mk 2 "b" [] none, Doc.mk 3 "c" [] none] : List Doc)
        = pre ++ d :: post ∧
      (∀ x ∈ pre, (failOnId2 x (effUserId x none)).isOk = true) ∧
      failOnId2 d (effUserId d none) = Except.error "boom" ∧
      sentDocs failOnId2 none
        [Doc.mk 1 "a" [] none, Doc.mk 2 "b" [] none, Doc.mk 3 "c" [] none] = pre :=
  (batch_insert_no_rollback failOnId2 none
      [Doc.mk 1 "a" [] none, Doc.mk 2 "b" [] none, Doc.mk 3 "c" [] none]).2.1
    "boom" (by rfl)

/-- The Python exception classes the selector distinguishes
(`exceptions.py`; `ImportError` is a builtin). -/
inductive PyErr where
  | connectionError (msg : String)
  | importError (msg : String)
  | riceDBError (msg : String)
  | otherExc (msg : String)
  deriving Repr, DecidableEq

/-- The two concrete transports
(`GrpcRiceDBClient` and `HTTPRiceDBClient`). -/
inductive TransportKind where
  | grpc
  | http
  deriving Repr, DecidableEq

/-- The validated `transport` constructor argument of `RiceDBClient`
(`unified_client.py` lines 93, 100-102). -/
inductive TransportMode where
  | auto
  | grpc
  | http
  deriving Repr, DecidableEq

/-- Host and the two ports, as used in the error messages of the selector
(`unified_client.py` lines 93-95, 132-135). -/
structure Config where
  host : String
  grpc_port : Nat
  http_port : Nat
  deriving Repr, DecidableEq

/-- One snapshot of the external world the selector probes: whether the
`grpcio` dependency imports, whether the gRPC `Health` RPC completes,
and whether the HTTP `GET /health` completes and with which status. -/
structure Env where
  grpcImport : Except PyErr Unit
  grpcHealthOk : Bool
  grpcErrDetails : String
  httpReachable : Bool
  httpStatusOk : Bool
  httpErrDetails : String
  deriving Repr

/-- The selector-relevant mutable state of `RiceDBClient`: the cached
`self._client` (with which concrete transport it is), the own
`_connected` flag of that client, and `self._connected` of the unified client. -/
structure SelectorState where
  client : Option TransportKind
  clientConnected : Bool
  unifiedConnected : Bool
  deriving Repr, DecidableEq

/-- `GrpcRiceDBClient.connect` (`grpc_client.py` lines 74-89): open the
channel, probe `Health`; on success set `_connected` and return `True`,
on an RPC error raise a gRPC-specific `ConnectionError`.  It never
returns `False`. -/
def grpcConnect (env : Env) : Except PyErr Bool :=
  if env.grpcHealthOk then .ok true
  else .error (.connectionError
    ("Failed to connect to RiceDB gRPC server: " ++ env.grpcErrDetails))

/-- `HTTPRiceDBClient.connect` (`http_client.py` lines 126-137): `GET
/health`; on completion `_connected = (status == 200)` is returned, on a
request exception an HTTP-specific `ConnectionError` is raised. -/
def httpConnect (env : Env) : Except PyErr Bool :=
  if env.httpReachable then .ok env.httpStatusOk
  else .error (.connectionError
    ("Failed to connect to RiceDB server: " ++ env.httpErrDetails))

/-- Dispatch `connect` on the concrete cached transport. -/
def clientConnect : TransportKind → Env → Except PyErr Bool
  | .grpc, env => grpcConnect env
  | .http, env => httpConnect env

/-- The aggregated failure message of auto selection
(`unified_client.py` lines 132-135). -/
def aggMsg (cfg : Config) : String :=
  "Failed to connect to RiceDB server on " ++ cfg.host ++ " (tried gRPC:"
    ++ toString cfg.grpc_port ++ " and HTTP:" ++ toString cfg.http_port ++ ")"

/-- The wrapped dependency-error message of the forced-gRPC branch
(`unified_client.py` lines 141-144). -/
def grpcDepMsg : String :=
  "gRPC transport requires grpcio package. Install it with: pip install ricedb[grpc]"

/-- The HTTP leg of auto selection (`unified_client.py` lines 123-135):
construct the HTTP client (overwriting `self._client`), connect; a
connected client is returned, a `ConnectionError` is swallowed and — like
a `False` return — leads to the single aggregated `ConnectionError`. -/
def tryHttpFallback (cfg : Config) (env : Env) (st : SelectorState) :
    Except PyErr TransportKind × SelectorState :=
  let st1 : SelectorState :=
    { st with client := some .http, clientConnected := false }
  match httpConnect env with
  | .ok true => (.ok .http, { st1 with clientConnected := true })
  | .ok false => (.error (.connectionError (aggMsg cfg)), st1)
  | .error (.connectionError _) => (.error (.connectionError (aggMsg cfg)), st1)
  | .error e => (.error e, st1)

/-- `RiceDBClient._get_client` (`unified_client.py` lines 104-149).  A
cached client is returned untouched.  Otherwise `auto` probes gRPC —
swallowing construction and connection errors alike (both `except` arms
lines 116-121 only `pass`) — and falls back to HTTP; the forced modes
construct exactly the requested client and do not call `connect` at all,
wrapping only a gRPC `ImportError` into a `RiceDBError`. -/
def getClient (cfg : Config) (mode : TransportMode) (env : Env) (st : SelectorState) :
    Except PyErr TransportKind × SelectorState :=
  match st.client with
  | some k => (.ok k, st)
  | none =>
      match mode with
      | .auto =>
          match env.grpcImport with
          | .error _ => tryHttpFallback cfg env st
          | .ok _ =>
              let st1 : SelectorState :=
                { st with client := some .grpc, clientConnected := false }
              match grpcConnect env with
              | .ok true => (.ok .grpc, { st1 with clientConnected := true })
              | .ok false => tryHttpFallback cfg env st1
              | .error _ => tryHttpFallback cfg env st1
      | .grpc =>
          match env.grpcImport with
          | .error (.importError _) => (.error (.riceDBError grpcDepMsg), st)
          | .error e => (.error e, st)
          | .ok _ =>
              (.ok .grpc, { st with client := some .grpc, clientConnected := false })
      | .http =>
          (.ok .http, { st with client := some .http, clientConnected := false })

/-- The body of the `try` block of `RiceDBClient.connect` (`unified_client.py`
lines 157-165): select a client, and if it is not already connected call
its `connect`, recording success in both `_connected` flags. -/
def connectAttempt (cfg : Config) (mode : TransportMode) (env : Env)
    (st : SelectorState) : Except PyErr Bool × SelectorState :=
  match getClient cfg mode env st with
  | (.error e, st1) => (.error e, st1)
  | (.ok k, st1) =>
      if st1.clientConnected then (.ok true, st1)
      else
        match clientConnect k env with
        | .error e => (.error e, st1)
        | .ok b =>
            let st2 : SelectorState := { st1 with clientConnected := b }
            if b then (.ok true, { st2 with unifiedConnected := true })
            else (.ok false, st2)

/-- `RiceDBClient.connect` (`unified_client.py` lines 151-167): the whole
attempt sits inside `try: ... except Exception: return False`, so every
exception — including the own connection error of a forced transport — is
swallowed and surfaced as a `False` return; state mutated before the
exception (the cached client) is kept. -/
def connectU (cfg : Config) (mode : TransportMode) (env : Env)
    (st : SelectorState) : Bool × SelectorState :=
  match connectAttempt cfg mode env st with
  | (.ok b, st1) => (b, st1)
  | (.error _, st1) => (false, st1)

/-- `RiceDBClient.disconnect` (`unified_client.py` lines 169-173): if a
client is cached, call its `disconnect` (clearing its `_connected`) and
clear `self._connected` — but `self._client` itself is left in place. -/
def disconnectU (st : SelectorState) : SelectorState :=
  match st.client with
  | some _ => { st with clientConnected := false, unifiedConnected := false }
  | none => st

theorem tryHttpFallback_connected (cfg : Config) (env : Env) (st : SelectorState)
    (h1 : env.httpReachable = true) (h2 : env.httpStatusOk = true) :
    (tryHttpFallback cfg env st).1 = Except.ok TransportKind.http := by
  unfold tryHttpFallback httpConnect
  rw [h1, h2]
  rfl

theorem tryHttpFallback_failed (cfg : Config) (env : Env) (st : SelectorState)
    (h : env.httpReachable = false ∨ env.httpStatusOk = false) :
    (tryHttpFallback cfg env st).1
      = Except.error (PyErr.connectionError (aggMsg cfg)) := by
  unfold tryHttpFallback httpConnect
  rcases h with h | h
  · rw [h]
    rfl
  · cases hr : env.httpReachable
    · rfl
    · rw [h]
      rfl

/-- C4: under auto selection on a fresh client, a failed gRPC attempt
(whether a dependency error at construction or a connection failure) is
swallowed and HTTP is attempted: if HTTP is reachable and healthy the
selector returns the HTTP transport with no exception, and if HTTP also
fails the selector raises the single aggregated `ConnectionError` whose
message names the host and both attempted ports. -/
theorem getClient_auto_grpc_failed (cfg : Config) (env : Env) (st : SelectorState)
    (h : st.client = none)
    (hgrpc : (∃ e, env.grpcImport = Except.error e) ∨ env.grpcHealthOk = false) :
    ∃ stx, getClient cfg TransportMode.auto env st = tryHttpFallback cfg env stx := by
  unfold getClient
  rw [h]
  cases him : env.grpcImport with
  | error e => exact ⟨st, rfl⟩
  | ok u =>
      have hg : env.grpcHealthOk = false := by
        rcases hgrpc with ⟨e, he⟩ | hg
        · rw [him] at he
          cases he
        · exact hg
      refine ⟨{ st with client := some TransportKind.grpc, clientConnected := false }, ?_⟩
      unfold grpcConnect
      rw [hg]
      simp

theorem auto_selection_fallback (cfg : Config) (env : Env) (st : SelectorState)
    (h : st.client = none)
    (hgrpc : (∃ e, env.grpcImport = Except.error e) ∨ env.grpcHealthOk = false) :
    ((env.httpReachable = true ∧ env.httpStatusOk = true) →
      (getClient cfg TransportMode.auto env st).1 = Except.ok TransportKind.http) ∧
    ((env.httpReachable = false ∨ env.httpStatusOk = false) →
      (getClient cfg TransportMode.auto env st).1
        = Except.error (PyErr.connectionError (aggMsg cfg))) ∧
    aggMsg cfg = "Failed to connect to RiceDB server on " ++ cfg.host
      ++ " (tried gRPC:" ++ toString cfg.grpc_port ++ " and HTTP:"
      ++ toString cfg.http_port ++ ")" := by
  obtain ⟨stx, hs⟩ := getClient_auto_grpc_failed cfg env st h hgrpc
  refine ⟨?_, ?_, rfl⟩
  · rintro ⟨h1, h2⟩
    rw [hs, tryHttpFallback_connected cfg env stx h1 h2]
  · intro hfail
    rw [hs, tryHttpFallback_failed cfg env stx hfail]

/-- A concrete configuration for the selector witnesses. -/
def cfgW : Config := ⟨"localhost", 50051, 3000⟩

/-- gRPC unreachable, HTTP reachable and healthy. -/
def envOnlyHttp : Env := ⟨.ok (), false, "connection refused", true, true, ""⟩

/-- Neither channel reachable. -/
def envAllDown : Env :=
  ⟨.ok (), false, "connection refused", false, false, "connection refused"⟩

/-- Witness for C4: with gRPC down, auto selection lands on HTTP when it is
healthy and raises the aggregated error when it is not. -/
theorem auto_selection_fallback_witness :
    (getClient cfgW TransportMode.auto envOnlyHttp ⟨none, false, false⟩).1
      = Except.ok TransportKind.http ∧
    (getClient cfgW TransportMode.auto envAllDown ⟨none, false, false⟩).1
      = Except.error (PyErr.connectionError (aggMsg cfgW)) :=
  ⟨(auto_selection_fallback cfgW envOnlyHttp ⟨none, false, false⟩ rfl
      (Or.inr rfl)).1 ⟨rfl, rfl⟩,
   (auto_selection_fallback cfgW envAllDown ⟨none, false, false⟩ rfl
      (Or.inr rfl)).2.1 (Or.inl rfl)⟩

/-- C5 counterexample: forcing the primary transport while only Channel B
is reachable does NOT raise the Channel A-specific connection error —
`RiceDBClient.connect` swallows it and returns `False` (and the
forced branch of the selector never even calls the `connect` of the transport). -/
theorem force_primary_counterexample :
    (connectU cfgW TransportMode.grpc envOnlyHttp ⟨none, false, false⟩).1 = false := by
  rfl

/-- C5 (amended): a forced mode instantiates exactly the requested
transport, with no fallback and without the selector calling `connect`;
the own `connect` of the transport does raise the Channel A-specific
(non-aggregated) connection error, but the unified `connect` catches every
exception and returns `False` instead of propagating it, and a dependency
error while forcing the primary is wrapped into a generic `RiceDBError`
rather than propagated unchanged. -/
theorem force_transport_behaviour (cfg : Config) (env : Env) (st : SelectorState)
    (h : st.client = none) (him : env.grpcImport = Except.ok ()) :
    getClient cfg TransportMode.grpc env st
      = (Except.ok TransportKind.grpc,
         { st with client := some TransportKind.grpc, clientConnected := false }) ∧
    (env.grpcHealthOk = false →
      clientConnect TransportKind.grpc env
        = Except.error (PyErr.connectionError
            ("Failed to connect to RiceDB gRPC server: " ++ env.grpcErrDetails))) ∧
    (env.grpcHealthOk = false →
      connectAttempt cfg TransportMode.grpc env st
        = (Except.error (PyErr.connectionError
             ("Failed to connect to RiceDB gRPC server: " ++ env.grpcErrDetails)),
           { st with client := some TransportKind.grpc, clientConnected := false }) ∧
      (connectU cfg TransportMode.grpc env st).1 = false) ∧
    (∀ env2 : Env, ∀ m : String,
      env2.grpcImport = Except.error (PyErr.importError m) →
      (getClient cfg TransportMode.grpc env2 st).1
        = Except.error (PyErr.riceDBError grpcDepMsg)) := by
  have hget : getClient cfg TransportMode.grpc env st
      = (Except.ok TransportKind.grpc,
         { st with client := some TransportKind.grpc, clientConnected := false }) := by
    unfold getClient
    rw [h, him]
  have hcc : env.grpcHealthOk = false →
      clientConnect TransportKind.grpc env
        = Except.error (PyErr.connectionError
            ("Failed to connect to RiceDB gRPC server: " ++ env.grpcErrDetails)) := by
    intro hg
    show grpcConnect env = _
    unfold grpcConnect
    rw [hg]
    rfl
  refine ⟨hget, hcc, ?_, ?_⟩
  · intro hg
    have hca : connectAttempt cfg TransportMode.grpc env st
        = (Except.error (PyErr.connectionError
             ("Failed to connect to RiceDB gRPC server: " ++ env.grpcErrDetails)),
           { st with client := some TransportKind.grpc, clientConnected := false }) := by
      simp only [connectAttempt, hget, hcc hg]
      rfl
    refine ⟨hca, ?_⟩
    unfold connectU
    rw [hca]
  · intro env2 m him2
    unfold getClient
    rw [h, him2]

/-- Witness for C5 (amended), at the concrete only-HTTP environment. -/
theorem force_transport_behaviour_witness :
    getClient cfgW TransportMode.grpc envOnlyHttp ⟨none, false, false⟩
      = (Except.ok TransportKind.grpc, ⟨some TransportKind.grpc, false, false⟩) ∧
    clientConnect TransportKind.grpc envOnlyHttp
      = Except.error (PyErr.connectionError
          ("Failed to connect to RiceDB gRPC server: " ++ "connection refused")) ∧
    (connectU cfgW TransportMode.grpc envOnlyHttp ⟨none, false, false⟩).1 = false := by
  obtain ⟨h1, h2, h3, _⟩ := force_transport_behaviour cfgW envOnlyHttp
    ⟨none, false, false⟩ rfl rfl
  exact ⟨h1, h2 rfl, (h3 rfl).2⟩

/-- C7 counterexample: `disconnect` does not reset the selector to `Idle`
— the cached transport survives, and a later selection returns it (even
when nothing is reachable any more) instead of starting the state machine
over. -/
theorem disconnect_keeps_cache_counterexample :
    (disconnectU ⟨some TransportKind.grpc, true, true⟩).client
      = some TransportKind.grpc ∧
    (getClient cfgW TransportMode.auto envAllDown
        (disconnectU ⟨some TransportKind.grpc, true, true⟩)).1
      = Except.ok TransportKind.grpc := by
  exact ⟨rfl, rfl⟩

/-- C7 (amended): once selected, the Transport is cached and every later
selection returns the very same cached instance untouched, for any mode
and environment; `disconnect` tears down the connection (the flags of the transport
and of the client are cleared) but leaves the cached
Transport in place, so a later selection reuses it rather than starting
over from `Idle`. -/
theorem transport_caching (cfg : Config) (mode : TransportMode) (env : Env)
    (st : SelectorState) (k : TransportKind) (h : st.client = some k) :
    getClient cfg mode env st = (Except.ok k, st) ∧
    disconnectU st = { st with clientConnected := false, unifiedConnected := false } ∧
    (disconnectU st).client = some k ∧
    getClient cfg mode env (disconnectU st) = (Except.ok k, disconnectU st) := by
  have hd : disconnectU st
      = { st with clientConnected := false, unifiedConnected := false } := by
    unfold disconnectU
    rw [h]
  refine ⟨?_, hd, ?_, ?_⟩
  · unfold getClient
    rw [h]
  · rw [hd]
    exact h
  · unfold getClient
    rw [hd]
    simp only [h]

/-- Witness for C7 (amended) at a concrete cached-gRPC state. -/
theorem transport_caching_witness :
    getClient cfgW TransportMode.auto envAllDown ⟨some TransportKind.grpc, true, true⟩
      = (Except.ok TransportKind.grpc, ⟨some TransportKind.grpc, true, true⟩) ∧
    disconnectU ⟨some TransportKind.grpc, true, true⟩
      = ⟨some TransportKind.grpc, false, false⟩ :=
  ⟨(transport_caching cfgW TransportMode.auto envAllDown
      ⟨some TransportKind.grpc, true, true⟩ TransportKind.grpc rfl).1,
   (transport_caching cfgW TransportMode.auto envAllDown
      ⟨some TransportKind.grpc, true, true⟩ TransportKind.grpc rfl).2.1⟩

/-- `RiceDBClient.stream_search` (`unified_client.py` lines 337-355): if
the active client is not the gRPC one, raise a labelled `RiceDBError`;
otherwise forward to the transport (whose behaviour is the parameter). -/
def stream_searchU (active : TransportKind) (run : Except PyErr β) : Except PyErr β :=
  match active with
  | .grpc => run
  | .http => .error (.riceDBError "Stream search is only available with gRPC transport")

/-- `GrpcRiceDBClient.check_permission` (`grpc_client.py` lines 496-510):
the `raise` is commented out in the source; the method prints a warning
and returns `False`. -/
def grpc_check_permission (node_id user_id : Int) (permission_type : String) :
    Except PyErr Bool :=
  .ok false

/-- `GrpcRiceDBClient.insert_with_acl` (`grpc_client.py` lines 454-471):
falls back to a plain single-user insert with the first listed user id, or
with the default user id 1 when the permission list is empty.  The
parameter is `self.insert` applied to the fixed node/vector/metadata, as a
function of the user id. -/
def grpc_insert_with_acl (insert : Int → Except PyErr β)
    (user_permissions : List (Int × List (String × Bool))) : Except PyErr β :=
  match user_permissions with
  | (uid, _) :: _ => insert uid
  | [] => insert 1

/-- C9 counterexample: not every capability-gap operation fails with a
labelled error — `check_permission` of the gRPC transport silently returns
the default `False` instead of raising. -/
theorem check_permission_counterexample :
    grpc_check_permission 1 2 "read" = Except.ok false := by
  rfl

/-- C9 (amended): the unified `stream_search` does fail with the clearly
labelled "only available with gRPC transport" error whenever the active
channel is HTTP; but the gRPC `check_permission` silently
returns `False` with no error, and its `insert_with_acl` silently falls
back to a plain single-user insert of the first (or default) user — so
the labelled-error rule does not hold for every capability gap. -/
theorem capability_gap_behaviour (run : Except PyErr Unit)
    (node_id user_id : Int) (permission_type : String)
    (insert : Int → Except PyErr Unit) (uid : Int)
    (ps : List (String × Bool)) (rest : List (Int × List (String × Bool))) :
    stream_searchU TransportKind.http run
      = Except.error
          (PyErr.riceDBError "Stream search is only available with gRPC transport") ∧
    grpc_check_permission node_id user_id permission_type = Except.ok false ∧
    grpc_insert_with_acl insert ((uid, ps) :: rest) = insert uid ∧
    grpc_insert_with_acl insert [] = insert 1 := by
  exact ⟨rfl, rfl, rfl, rfl⟩

end RiceDB
